import Mathlib

/-!
Shallow embedding of `src/christas_closet/static/script.js` (client script of
the "Christa's Closet" web app) and proofs about its daily-notification
scheduler, share-text construction, preference resolution and fallback
selection.

Modelling conventions:
* A moment in time (a JS `Date`) is an `Instant`: a calendar day ordinal plus
  the number of milliseconds elapsed since that day's midnight.  `Date`
  comparison and `getTime()` subtraction are modelled through `Instant.toMs`.
* `target.setHours(h, m, 0, 0)` keeps the day and replaces the
  milliseconds-of-day; `target.setDate(target.getDate() + 1)` increments the
  day ordinal.
* JS string truthiness (`s || t`): `null`/`undefined` is `Option.none`, the
  empty string is falsy.
* Browser capabilities (`Notification` in window, `navigator.share`,
  `navigator.clipboard`) are booleans; effects are reified as small inductive
  result types.
-/

/-- Milliseconds in one day, the unit by which `setDate(+1)` moves `getTime()`. -/
def msPerDay : Nat := 86400000

/-- A moment: calendar-day ordinal and milliseconds since that day's midnight.
Models a JS `Date` value in local time. -/
structure Instant where
  day : Nat
  msOfDay : Nat
deriving DecidableEq, Repr

/-- `Date.getTime()`: total milliseconds of an `Instant` on the uniform-day
timeline. -/
def Instant.toMs (t : Instant) : Nat := t.day * msPerDay + t.msOfDay

/-- Milliseconds-of-day denoted by hour `h` and minute `m`
(seconds and milliseconds zero), as produced by `setHours(h, m, 0, 0)`. -/
def todMs (h m : Nat) : Nat := ((h * 60 + m) * 60) * 1000

/-- JS `String.prototype.split` with a one-character separator, over the
character list of the string: every occurrence of `sep` starts a new field. -/
def splitOnChar (sep : Char) : List Char → List (List Char)
  | [] => [[]]
  | c :: rest =>
    let r := splitOnChar sep rest
    if c = sep then [] :: r
    else
      match r with
      | [] => [[c]]
      | g :: gs => (c :: g) :: gs

/-- Decimal digit run to a number; `none` models the NaN result of
`parseInt` on an empty or non-numeric field. -/
def decDigits? (cs : List Char) : Option Nat :=
  match cs with
  | [] => none
  | _ =>
    cs.foldl
      (fun acc c =>
        match acc with
        | none => none
        | some n => if c.isDigit then some (n * 10 + (c.toNat - 48)) else none)
      (some 0)

/-- `timeStr.split(':')` followed by `parseInt(parts[0], 10)` and
`parseInt(parts[1], 10)` in `scheduleNotificationAt`; `none` stands for the
NaN outcome on strings that do not carry two numeric fields. -/
def parseClock (timeStr : String) : Option (Nat × Nat) :=
  match splitOnChar ':' timeStr.data with
  | p0 :: p1 :: _ =>
    match decDigits? p0, decDigits? p1 with
    | some h, some m => some (h, m)
    | _, _ => none
  | _ => none

/-- `target.setHours(hours, minutes, 0, 0)` applied to a fresh `new Date()`
equal to `now`: same day, milliseconds-of-day replaced. -/
def setHMS (now : Instant) (h m : Nat) : Instant :=
  ⟨now.day, todMs h m⟩

/-- Lines 21–28 of `scheduleNotificationAt.schedule`: build today's target,
then `if (target <= now) target.setDate(target.getDate() + 1)`. -/
def computeTarget (h m : Nat) (now : Instant) : Instant :=
  let target := setHMS now h m
  if target.toMs ≤ now.toMs then ⟨target.day + 1, target.msOfDay⟩ else target

/-- Line 29: `const timeout = target.getTime() - now.getTime()`. -/
def computeDelay (h m : Nat) (now : Instant) : Int :=
  ((computeTarget h m now).toMs : Int) - (now.toMs : Int)

/-- One arming step of `scheduleNotificationAt`: parse the time string and
compute the target instant together with the `setTimeout` delay. -/
def scheduleNextFire (timeStr : String) (now : Instant) : Option (Instant × Int) :=
  match parseClock timeStr with
  | some (h, m) => some (computeTarget h m now, computeDelay h m now)
  | none => none

/-- Whitespace for JS `String.prototype.trim` (the characters relevant to
this model). -/
def isJsSpace (c : Char) : Bool :=
  c = ' ' || c = '\t' || c = '\n' || c = '\r'

/-- JS `li.textContent.trim()`: strip leading and trailing whitespace. -/
def jsTrim (s : String) : String :=
  ⟨((s.data.dropWhile isJsSpace).reverse.dropWhile isJsSpace).reverse⟩

/-- Line 58: the fixed header the share text starts from. -/
def shareHeader : String := "My outfit from Christa's Closet:\n"

/-- Lines 57–64 of `setupShare`'s click handler: start from the header and,
if the `.outfit-list` container exists, append each `li`'s trimmed text
content followed by a newline, in document order. -/
def shareText (list : Option (List String)) : String :=
  let text := shareHeader
  match list with
  | some items => items.foldl (fun t li => t ++ jsTrim li ++ "\n") text
  | none => text

/-- Specification-shaped view of the item lines: each trimmed item terminated
by a newline, concatenated in order. -/
def itemLines : List String → String
  | [] => ""
  | li :: rest => jsTrim li ++ "\n" ++ itemLines rest

/-- Lines 44–46 of `setupNotifications`:
`stored` is `localStorage.getItem('notification_time')` (`none` = null),
`defaultGlobal` is `window.DEFAULT_NOTIFICATION_TIME` (`none` = undefined);
the result models `stored || defaultTime || '08:00'` under JS string
truthiness (empty string falsy). -/
def resolveTimeStr (stored : Option String) (defaultGlobal : Option String) : String :=
  let defaultTime := match defaultGlobal with
    | some v => v
    | none => "08:00"
  let firstOr := match stored with
    | some s => if s = "" then defaultTime else s
    | none => defaultTime
  if firstOr = "" then "08:00" else firstOr

/-- Outcome of `setupNotifications`: either nothing happens, or the scheduler
is started with a resolved time string. -/
inductive NotifSetup where
  | noop
  | scheduled (timeStr : String)
deriving DecidableEq, Repr

/-- Lines 40–49: bail out if the `Notification` capability is absent, bail out
if the permission response is not `'granted'`, otherwise resolve the time
preference and start `scheduleNotificationAt`. -/
def setupNotifications (hasNotificationCap : Bool) (permission : String)
    (stored defaultGlobal : Option String) : NotifSetup :=
  if !hasNotificationCap then NotifSetup.noop
  else if permission ≠ "granted" then NotifSetup.noop
  else NotifSetup.scheduled (resolveTimeStr stored defaultGlobal)

/-- Observable effect of the share click handler's dispatch. -/
inductive ShareEffect where
  | sharedOk
  | shareFailedLogged
  | copiedToClipboard
  | alerted
deriving DecidableEq, Repr

/-- Lines 65–79 of `setupShare`: if `navigator.share` exists call it (a
rejection is caught and logged, nothing else runs); else if
`navigator.clipboard` exists copy and confirm; else `alert` the text. -/
def shareClick (hasShare hasClipboard nativeShareFails : Bool) : ShareEffect :=
  if hasShare then
    if nativeShareFails then ShareEffect.shareFailedLogged else ShareEffect.sharedOk
  else if hasClipboard then ShareEffect.copiedToClipboard
  else ShareEffect.alerted

/-! ## Helper lemmas -/

theorem computeTarget_ahead (h m : Nat) (now : Instant)
    (hahead : now.msOfDay < todMs h m) :
    computeTarget h m now = ⟨now.day, todMs h m⟩ := by
  simp only [computeTarget, setHMS]
  split
  case isTrue hc => exact absurd hc (by simp only [Instant.toMs]; omega)
  case isFalse hc => rfl

theorem computeTarget_notAhead (h m : Nat) (now : Instant)
    (hpassed : todMs h m ≤ now.msOfDay) :
    computeTarget h m now = ⟨now.day + 1, todMs h m⟩ := by
  simp only [computeTarget, setHMS]
  split
  case isTrue hc => rfl
  case isFalse hc => exact absurd (by simp only [Instant.toMs]; omega) hc

theorem computeDelay_ahead (h m : Nat) (now : Instant)
    (hahead : now.msOfDay < todMs h m) :
    computeDelay h m now = (todMs h m : Int) - (now.msOfDay : Int) := by
  rw [computeDelay, computeTarget_ahead h m now hahead]
  simp only [Instant.toMs]
  push_cast
  ring

theorem computeDelay_notAhead (h m : Nat) (now : Instant)
    (hpassed : todMs h m ≤ now.msOfDay) :
    computeDelay h m now =
      (msPerDay : Int) + (todMs h m : Int) - (now.msOfDay : Int) := by
  rw [computeDelay, computeTarget_notAhead h m now hpassed]
  simp only [Instant.toMs]
  push_cast
  ring

theorem computeDelay_nonneg (h m : Nat) (now : Instant)
    (hnow : now.msOfDay < msPerDay) :
    0 ≤ computeDelay h m now := by
  simp only [computeDelay, computeTarget, setHMS]
  split
  case isTrue hc =>
    simp only [Instant.toMs] at hc ⊢
    simp only [msPerDay] at hnow ⊢
    omega
  case isFalse hc =>
    simp only [Instant.toMs] at hc ⊢
    omega

theorem scheduleNextFire_eq (timeStr : String) (h m : Nat) (now : Instant)
    (hp : parseClock timeStr = some (h, m)) :
    scheduleNextFire timeStr now =
      some (computeTarget h m now, computeDelay h m now) := by
  simp only [scheduleNextFire, hp]

theorem foldl_append_itemLines (items : List String) (acc : String) :
    items.foldl (fun t li => t ++ jsTrim li ++ "\n") acc = acc ++ itemLines items := by
  induction items generalizing acc with
  | nil => simp [itemLines, String.append_empty]
  | cons li rest ih =>
      rw [List.foldl_cons, ih]
      simp only [itemLines, String.append_assoc]

/-! ## Claim theorems -/

/-- Claim C1: for every valid "HH:MM" time string whose time-of-day is still
strictly ahead of the current moment today, the scheduler's next-fire target
is today's date at that hour and minute (seconds and milliseconds zero), and
the computed delay is the remaining milliseconds until it. -/
theorem scheduleNextFire_ahead_today (timeStr : String) (h m : Nat) (now : Instant)
    (hp : parseClock timeStr = some (h, m))
    (hh : h < 24) (hm : m < 60) (hnow : now.msOfDay < msPerDay)
    (hahead : now.msOfDay < todMs h m) :
    scheduleNextFire timeStr now =
      some (⟨now.day, todMs h m⟩, (todMs h m : Int) - (now.msOfDay : Int)) := by
  rw [scheduleNextFire_eq timeStr h m now hp, computeTarget_ahead h m now hahead,
    computeDelay_ahead h m now hahead]

/-- Claim C1 witness: time "08:00" at 07:59:00 on day 737000 gives target
737000 at 08:00:00.000 and delay exactly 60000 ms. -/
theorem scheduleNextFire_ahead_today_witness :
    scheduleNextFire "08:00" ⟨737000, 28740000⟩ =
      some (⟨737000, 28800000⟩, 60000) := by
  have hc := scheduleNextFire_ahead_today "08:00" 8 0 ⟨737000, 28740000⟩
    (by decide) (by decide) (by decide) (by decide) (by decide)
  rw [hc]
  decide

/-- Claim C2: for every valid "HH:MM" time string whose time-of-day has
already strictly passed today, the scheduler's next-fire target is tomorrow
at that hour and minute, and the delay is one full day plus the (negative)
sub-day offset — i.e. 24 h minus how far past the time the moment is. -/
theorem scheduleNextFire_passed_today (timeStr : String) (h m : Nat) (now : Instant)
    (hp : parseClock timeStr = some (h, m))
    (hh : h < 24) (hm : m < 60) (hnow : now.msOfDay < msPerDay)
    (hpassed : todMs h m < now.msOfDay) :
    scheduleNextFire timeStr now =
      some (⟨now.day + 1, todMs h m⟩,
        (msPerDay : Int) + (todMs h m : Int) - (now.msOfDay : Int)) := by
  rw [scheduleNextFire_eq timeStr h m now hp,
    computeTarget_notAhead h m now (Nat.le_of_lt hpassed),
    computeDelay_notAhead h m now (Nat.le_of_lt hpassed)]

/-- Claim C2 witness: time "08:00" at 08:00:01 on day 737000 gives target
day 737001 (tomorrow) at 08:00:00.000, delay 86399000 ms. -/
theorem scheduleNextFire_passed_today_witness :
    scheduleNextFire "08:00" ⟨737000, 28801000⟩ =
      some (⟨737001, 28800000⟩, 86399000) := by
  have hc := scheduleNextFire_passed_today "08:00" 8 0 ⟨737000, 28801000⟩
    (by decide) (by decide) (by decide) (by decide) (by decide)
  rw [hc]
  decide

/-- Claim C3 counterexample: at time "08:00" with current moment exactly
08:00:00.000 on day 737000, the code's `target <= now` test is true, so the
target IS advanced to the next day and the delay is 86400000 ms, not 0 —
contradicting the claim that the target is not advanced and fires
immediately. -/
theorem scheduleNextFire_equal_now_cex :
    scheduleNextFire "08:00" ⟨737000, 28800000⟩ =
        some (⟨737001, 28800000⟩, 86400000) ∧
      (737001 : Nat) ≠ 737000 ∧ (86400000 : Int) ≠ 0 := by
  refine ⟨by decide, by decide, by decide⟩

/-- Claim C3 (amended): for every valid "HH:MM" time string, when the
constructed target equals the current moment to the millisecond, the
scheduler DOES advance the target by one day (line 26 uses `target <= now`)
and the computed delay is exactly one day, 86400000 ms; a delay of 0 never
occurs. -/
theorem scheduleNextFire_equal_now_advances (timeStr : String) (h m : Nat)
    (now : Instant) (hp : parseClock timeStr = some (h, m))
    (hh : h < 24) (hm : m < 60) (hnow : now.msOfDay < msPerDay)
    (heq : todMs h m = now.msOfDay) :
    scheduleNextFire timeStr now =
      some (⟨now.day + 1, todMs h m⟩, (msPerDay : Int)) := by
  rw [scheduleNextFire_eq timeStr h m now hp,
    computeTarget_notAhead h m now (Nat.le_of_eq heq),
    computeDelay_notAhead h m now (Nat.le_of_eq heq), heq]
  simp only [add_sub_cancel_right]

/-- Claim C3 (amended) witness: "08:00" at exactly 08:00:00.000 gives target
tomorrow and delay 86400000 ms. -/
theorem scheduleNextFire_equal_now_advances_witness :
    scheduleNextFire "08:00" ⟨737000, 28800000⟩ =
      some (⟨737001, 28800000⟩, 86400000) := by
  have hc := scheduleNextFire_equal_now_advances "08:00" 8 0 ⟨737000, 28800000⟩
    (by decide) (by decide) (by decide) (by decide) (by decide)
  rw [hc]
  decide

/-- Claim C4: for every valid "HH:MM" time string and every current moment,
the delay the scheduler computes (target minus now in milliseconds) is
non-negative. -/
theorem scheduleNextFire_delay_nonneg (timeStr : String) (h m : Nat) (now : Instant)
    (hp : parseClock timeStr = some (h, m))
    (hh : h < 24) (hm : m < 60) (hnow : now.msOfDay < msPerDay) :
    scheduleNextFire timeStr now =
        some (computeTarget h m now, computeDelay h m now) ∧
      0 ≤ computeDelay h m now :=
  ⟨scheduleNextFire_eq timeStr h m now hp, computeDelay_nonneg h m now hnow⟩

/-- Claim C4 witness: at midnight of day 737000 with time "08:00", the
computed delay is non-negative. -/
theorem scheduleNextFire_delay_nonneg_witness :
    scheduleNextFire "08:00" ⟨737000, 0⟩ =
        some (computeTarget 8 0 ⟨737000, 0⟩, computeDelay 8 0 ⟨737000, 0⟩) ∧
      0 ≤ computeDelay 8 0 ⟨737000, 0⟩ :=
  scheduleNextFire_delay_nonneg "08:00" 8 0 ⟨737000, 0⟩
    (by decide) (by decide) (by decide) (by decide)

/-- Claim C5: the share text is the fixed header followed by the trimmed
text content of each list item in order, each terminated by a newline; in
particular items "Blue jeans" and "White tee" yield exactly
"My outfit from Christa's Closet:\nBlue jeans\nWhite tee\n". -/
theorem shareText_header_then_items :
    (∀ items : List String, shareText (some items) = shareHeader ++ itemLines items) ∧
      shareText (some ["Blue jeans", "White tee"]) =
        "My outfit from Christa's Closet:\nBlue jeans\nWhite tee\n" :=
  ⟨fun items => foldl_append_itemLines items shareHeader, by rfl⟩

/-- Claim C10: when the outfit-list container is absent, the share text is
exactly the header, with no item lines. -/
theorem shareText_no_container :
    shareText none = shareHeader ∧
      shareText none = "My outfit from Christa's Closet:\n" :=
  ⟨rfl, rfl⟩

/-- Claim C6 counterexample: a persisted value IS present (the empty string,
exactly what the settings handler stores when the input is cleared), yet
resolution returns the configured default "09:00" rather than the persisted
value — refuting "returns the persisted value whenever one is present". -/
theorem resolveTimeStr_persisted_cex :
    resolveTimeStr (some "") (some "09:00") = "09:00" ∧
      ("09:00" : String) ≠ "" :=
  ⟨rfl, by decide⟩

/-- Claim C6 (amended): resolution returns the persisted value whenever a
NON-EMPTY one is present, ignoring the configured default; with no persisted
value it returns the configured default (when that is non-empty); with
neither a persisted value nor a configured default it returns "08:00". -/
theorem resolveTimeStr_resolution_order :
    (∀ (s : String) (dg : Option String), s ≠ "" → resolveTimeStr (some s) dg = s) ∧
      (∀ d : String, d ≠ "" → resolveTimeStr none (some d) = d) ∧
      resolveTimeStr none none = "08:00" := by
  refine ⟨fun s dg hs => ?_, fun d hd => ?_, rfl⟩
  · simp only [resolveTimeStr, if_neg hs]
  · simp only [resolveTimeStr, if_neg hd]

/-- Claim C6 (amended) witness: persisted "07:30" wins over default "09:00";
default "09:00" is used when nothing is persisted; "08:00" when neither
exists. -/
theorem resolveTimeStr_resolution_order_witness :
    resolveTimeStr (some "07:30") (some "09:00") = "07:30" ∧
      resolveTimeStr none (some "09:00") = "09:00" ∧
      resolveTimeStr none none = "08:00" :=
  ⟨resolveTimeStr_resolution_order.1 "07:30" (some "09:00") (by decide),
    resolveTimeStr_resolution_order.2.1 "09:00" (by decide),
    resolveTimeStr_resolution_order.2.2⟩

/-- Claim C9: an empty persisted value is treated as absent: resolution
falls back to the configured default, and to "08:00" when the default is
absent or itself empty. -/
theorem resolveTimeStr_empty_stored (d : String) (hd : d ≠ "") :
    resolveTimeStr (some "") (some d) = d ∧
      resolveTimeStr (some "") none = "08:00" ∧
      resolveTimeStr (some "") (some "") = "08:00" := by
  refine ⟨?_, rfl, rfl⟩
  simp [resolveTimeStr, hd]

/-- Claim C9 witness: empty persisted value with default "09:15" resolves to
"09:15"; with no or empty default it resolves to "08:00". -/
theorem resolveTimeStr_empty_stored_witness :
    resolveTimeStr (some "") (some "09:15") = "09:15" ∧
      resolveTimeStr (some "") none = "08:00" ∧
      resolveTimeStr (some "") (some "") = "08:00" :=
  resolveTimeStr_empty_stored "09:15" (by decide)

/-- Claim C7: when the notification capability is absent or the permission
response is anything other than "granted", `setupNotifications` performs no
scheduling at all and surfaces no error (it returns the silent no-op
outcome). -/
theorem setupNotifications_silent_noop (hasCap : Bool) (permission : String)
    (stored dg : Option String)
    (hdeny : hasCap = false ∨ permission ≠ "granted") :
    setupNotifications hasCap permission stored dg = NotifSetup.noop := by
  rcases hdeny with hc | hperm
  · simp [setupNotifications, hc]
  · cases hasCap with
    | false => simp [setupNotifications]
    | true => simp [setupNotifications, hperm]

/-- Claim C7 witness: with the capability present but permission "denied",
no scheduling happens. -/
theorem setupNotifications_silent_noop_witness :
    setupNotifications true "denied" none none = NotifSetup.noop :=
  setupNotifications_silent_noop true "denied" none none (Or.inr (by decide))

/-- Claim C8: the share delivery method is selected solely by capability
presence in priority order — native share first, then clipboard, then alert;
when native share is present and its invocation fails, the failure is only
logged and neither the clipboard nor the alert fallback runs. -/
theorem shareClick_capability_priority :
    (∀ hasClipboard : Bool,
        shareClick true hasClipboard true = ShareEffect.shareFailedLogged) ∧
      (∀ hasClipboard : Bool,
        shareClick true hasClipboard false = ShareEffect.sharedOk) ∧
      (∀ nativeFails : Bool,
        shareClick false true nativeFails = ShareEffect.copiedToClipboard) ∧
      (∀ nativeFails : Bool,
        shareClick false false nativeFails = ShareEffect.alerted) :=
  ⟨fun _ => rfl, fun _ => rfl, fun _ => rfl, fun _ => rfl⟩
